import Mathlib

/-!
Shallow embedding of `src/state.ts` (loopover solving-session state machine).

The puzzle engine (`game.ts`) is an external collaborator: it owns the board,
applies moves and detects the solved state.  We therefore model the board as an
abstract type `Board` and pass the engine operations
`applyMove : Board → Nat → Nat → Int → Board` (for `game.animatedMove` /
player-gesture board mutation) and `isSolved : Board → Bool` (for
`game.board.isSolved()`) as explicit function parameters.  The two engine
fields observed by `state.ts` (`game.board`, `game.blind`) are folded into the
`State` structure.

`Date.now()` is an external input: every operation that reads the clock takes
an explicit `now : Int` (milliseconds).  Successive `Date.now()` calls inside
one synchronous handler are modelled as the same instant, matching the spec's
single-event-at-a-time model.  The periodic display sampler (`setInterval`),
IndexedDB persistence (`db`, `sessionId`) and pure UI calls (`canvas.focus`)
have no effect on the session fields the claims are about and are omitted.
-/

namespace Loopover

/-- The `EventType` enum of `state.ts` (Normal = 0, Fmc = 1, Blind = 2). -/
inductive EventType where
  | Normal
  | Fmc
  | Blind
deriving DecidableEq

/-- A move as it appears in the move log: `{axis, index, n, time}`.  The
concrete `Move` type lives in the external `game.ts`; `state.ts` only reads
and writes the fields `axis`, `index`, `n` and `time`, so we model exactly
those.  `time` is the relative timestamp stamped on log entries. -/
structure Move where
  axis : Nat
  index : Nat
  n : Int
  time : Int
deriving DecidableEq

/-- The `Solve` record of `state.ts`.  `scramble` is declared `Board` in the
TypeScript interface, but it is filled from `this.scrambledBoard!`, which can
be `undefined` at runtime (the non-null assertion is compile-time only), so we
model it as `Option Board`.  `memoTime` and `dnf` are optional fields. -/
structure Solve (Board : Type) where
  time : Int
  moves : List Move
  scramble : Option Board
  startTime : Int
  memoTime : Option Int := none
  dnf : Option Bool := none
deriving DecidableEq

/-- The `StoredState` preferences record (`localStorage` serialization). -/
structure StoredState where
  version : Int
  cols : Nat
  rows : Nat
  event : EventType
  noRegrips : Option Bool := none
  darkMode : Option Bool := none
  forceMobile : Option Bool := none
  useLetters : Option Bool := none
  darkText : Option Bool := none
deriving DecidableEq

/-- The `State` class of `state.ts`.  Default field values are the class field
initializers.  `board` and `blind` mirror the engine fields `game.board` and
`game.blind` observed and written by `state.ts`; `interval`, `db` and
`sessionId` (timer handle / persistence handles) are omitted, see the header
comment. -/
structure State (Board : Type) where
  cols : Nat := 5
  rows : Nat := 5
  custom : Bool := false
  event : EventType := EventType.Normal
  noRegrips : Bool := false
  darkMode : Bool := false
  forceMobile : Bool := false
  useLetters : Bool := true
  darkText : Bool := false
  started : Bool := false
  scrambled : Bool := false
  inSolvingPhase : Bool := false
  dnf : Bool := false
  time : Int := 0
  startTime : Int := 0
  memoTime : Int := 0
  scrambledBoard : Option Board := none
  moveHistory : List Move := []
  undos : Nat := 0
  inspecting : Bool := false
  solves : List (Solve Board) := []
  allSolves : List (Solve Board) := []
  sessionSolves : List (String × List (Solve Board)) := []
  board : Board
  blind : Bool := false
deriving DecidableEq

variable {Board : Type}

/-- A freshly constructed `new State()` (all class-field initializers),
with the engine's board `b`. -/
def State.initial (b : Board) : State Board := { board := b }

/-- The `eventName` getter: `` `${cols}x${rows}` `` plus mode and
constraint suffixes. -/
def State.eventName (s : State Board) : String :=
  toString s.cols ++ "x" ++ toString s.rows
    ++ (match s.event with
        | EventType.Normal => ""
        | EventType.Fmc => "-fmc"
        | EventType.Blind => "-bld")
    ++ (if s.noRegrips then "-nrg" else "")

/-- The `displayTime` getter.  While inspecting it is
`moveHistory[length - undos]?.time ?? time`.  The index is a `Nat` here;
in TypeScript `length - undos` could be a negative number when
`undos > length`, but that never happens (the cursor invariant), and both
readings agree whenever `undos ≤ length`. -/
def State.displayTime (s : State Board) : Int :=
  if s.inspecting then
    (((s.moveHistory.get? (s.moveHistory.length - s.undos)).map Move.time).getD s.time)
  else s.time

/-- The `moves` getter: `moveHistory.length - undos`. -/
def State.movesCount (s : State Board) : Nat :=
  s.moveHistory.length - s.undos

/-- `start()`: begin timing at instant `now`.  The periodic display sampler it
schedules is omitted (it only republishes `now - startTime` for display). -/
def State.start (s : State Board) (now : Int) : State Board :=
  { s with started := true, time := 0, memoTime := 0, startTime := now }

/-- The synchronous field resets of `reset(onlyResetState = true)`: clear the
transient session fields and (re)bind `solves` to the per-event session list
(`sessionSolves[eventName]`, created when absent).  In TypeScript `solves`
aliases the array stored in `sessionSolves`; we model the alias by keeping the
two in sync explicitly (see `handleSolved`). -/
def State.softReset (s : State Board) : State Board :=
  let s1 : State Board :=
    { s with started := false, scrambled := false, inSolvingPhase := false,
             dnf := false, moveHistory := [], undos := 0, time := 0,
             memoTime := 0, inspecting := false }
  let ss := if (s1.sessionSolves.lookup s1.eventName).isNone
            then s1.sessionSolves ++ [(s1.eventName, ([] : List (Solve Board)))]
            else s1.sessionSolves
  { s1 with sessionSolves := ss, solves := (ss.lookup s1.eventName).getD [] }

/-- Full `reset()` (without `onlyResetState`): additionally reconfigure the
engine — `setBoardSize` regenerates the board (passed in as `newBoard`),
`game.blind = false` — and, when the database is available, replace
`allSolves` with the solves loaded for the current event (passed in as
`loaded`; `none` models an absent database).  The `activeTile` regrip
bookkeeping is engine-internal and omitted. -/
def State.reset (s : State Board) (newBoard : Board)
    (loaded : Option (List (Solve Board))) : State Board :=
  let s1 := s.softReset
  { s1 with board := newBoard, blind := false,
            allSolves := loaded.getD s1.allSolves }

/-- `scramble()`: soft reset, ask the engine for a fresh scrambled board
(passed in as `newBoard`), snapshot it, and in blind mode start the timer
immediately at `now`. -/
def State.scramble (s : State Board) (newBoard : Board) (now : Int) :
    State Board :=
  let s1 := s.softReset
  let s2 := { s1 with board := newBoard, scrambled := true,
                      scrambledBoard := some newBoard }
  if s2.event = EventType.Blind then s2.start now else s2

/-- `handleSolved()` at instant `now`: stop timing, compute the final elapsed
time, build the immutable `Solve` record and append it to `solves`,
`allSolves` and (through the alias, see `softReset`) to the
`sessionSolves` entry for the current event.  The IndexedDB write and lazy
`sessionId` allocation are fire-and-forget persistence, omitted. -/
def State.handleSolved (s : State Board) (now : Int) : State Board :=
  let t := now - s.startTime
  let solve : Solve Board :=
    { startTime := s.startTime, time := t, moves := s.moveHistory,
      scramble := s.scrambledBoard,
      memoTime := if 0 < s.memoTime then some s.memoTime else none,
      dnf := if s.dnf then some true else none }
  { s with time := t, started := false, scrambled := false,
           inSolvingPhase := false,
           solves := s.solves ++ [solve],
           allSolves := s.allSolves ++ [solve],
           sessionSolves := s.sessionSolves.map
             (fun p => if p.1 = s.eventName then (p.1, p.2 ++ [solve]) else p) }

/-- `done()` at instant `now`: reveal the board, set `dnf` from the solved
predicate, and finalize unconditionally. -/
def State.done (isSolved : Board → Bool) (s : State Board) (now : Int) :
    State Board :=
  State.handleSolved { s with blind := false, dnf := !(isSolved s.board) } now

/-- `undo()`: no-op at `undos == moveHistory.length`; otherwise apply the
inverse of the entry at `length - undos - 1` to the board and advance the
cursor.  The `none` branch of the lookup is unreachable whenever
`undos ≤ moveHistory.length` (the cursor invariant, claim C8). -/
def State.undo (applyMove : Board → Nat → Nat → Int → Board)
    (s : State Board) : State Board :=
  if s.undos = s.moveHistory.length then s
  else
    match s.moveHistory.get? (s.moveHistory.length - s.undos - 1) with
    | some move =>
        { s with board := applyMove s.board move.axis move.index (-move.n),
                 undos := s.undos + 1 }
    | none => s

/-- `redo()`: no-op at `undos == 0`; otherwise re-apply the entry at
`length - undos` to the board and retreat the cursor.  The `none` branch is
unreachable whenever `undos ≤ moveHistory.length`. -/
def State.redo (applyMove : Board → Nat → Nat → Int → Board)
    (s : State Board) : State Board :=
  if s.undos = 0 then s
  else
    match s.moveHistory.get? (s.moveHistory.length - s.undos) with
    | some move =>
        { s with board := applyMove s.board move.axis move.index move.n,
                 undos := s.undos - 1 }
    | none => s

/-- `inspect(solve)`: soft reset, enter inspecting mode, load the solve's
total time and `dnf` (`!!solve.dnf`), set the board to a clone of the
scramble snapshot, load the move log and set the cursor to its full length.
When the record's scramble snapshot is missing (`undefined` at runtime,
see `Solve.scramble`) the TypeScript code would throw on `.clone()`; we
model that as `none`. -/
def State.inspect (s : State Board) (solve : Solve Board) :
    Option (State Board) :=
  match solve.scramble with
  | none => none
  | some b =>
      some { s.softReset with
               inspecting := true, time := solve.time,
               dnf := solve.dnf.getD false, board := b,
               moveHistory := solve.moves, undos := solve.moves.length }

/-- The redo-branch truncation in `handleMove`:
`moveHistory.splice(length - undos, undos)` when `undos > 0`, i.e. delete the
trailing `undos` entries (under the cursor invariant `undos ≤ length`), then
reset the cursor. -/
def State.truncateRedo (s : State Board) : State Board :=
  if 0 < s.undos then
    { s with moveHistory := s.moveHistory.take (s.moveHistory.length - s.undos),
             undos := 0 }
  else s

/-- The append loop in `handleMove`: push `|n|` unit entries, each with
`n = Math.sign(n)` and `time = now - startTime`. -/
def State.pushEntries (s : State Board) (move : Move) (now : Int) :
    State Board :=
  let entry : Move := { move with n := move.n.sign, time := now - s.startTime }
  { s with moveHistory := s.moveHistory ++ List.replicate move.n.natAbs entry }

/-- `handleMove(move, isPlayerMove)` at instant `now`, called by the engine
after the board has already been mutated. -/
def State.handleMove (isSolved : Board → Bool) (s : State Board)
    (move : Move) (isPlayerMove : Bool) (now : Int) : State Board :=
  if !isPlayerMove then s
  else
    let s1 := if s.scrambled && !s.started then s.start now else s
    if !s1.started then s1
    else
      let s3 := (s1.truncateRedo).pushEntries move now
      if s3.event = EventType.Blind then
        if !s3.inSolvingPhase then
          { s3 with inSolvingPhase := true, blind := true,
                    memoTime := now - s3.startTime }
        else s3
      else if isSolved s3.board then s3.handleSolved now
      else s3

/-- `serialize()`: the version-0 preferences record; optional flags are
included only when they differ from the defaults. -/
def State.serialize (s : State Board) : StoredState :=
  { version := 0, cols := s.cols, rows := s.rows, event := s.event,
    noRegrips := if s.noRegrips then some true else none,
    darkText := if s.darkText then some true else none,
    useLetters := if !s.useLetters then some false else none,
    forceMobile := if s.forceMobile then some true else none,
    darkMode := if s.darkMode then some true else none }

/-- `loadFromLocalStorage()`: `stored = none` models an absent
`localStorage.loopover` key.  A version mismatch discards the whole record.
`custom` is recomputed as `cols != rows || cols > 10 && cols != 20`.  The
remaining fields are merged dynamically, skipping absent (`null`) values;
the stray `version` property this loop copies onto the object shadows no
declared `State` field and is invisible to the typed model. -/
def State.loadFromLocalStorage (s : State Board)
    (stored : Option StoredState) : State Board :=
  match stored with
  | none => s
  | some st =>
      if st.version ≠ 0 then s
      else
        { s with cols := st.cols, rows := st.rows,
                 custom := decide (st.cols ≠ st.rows)
                   || (decide (10 < st.cols) && decide (st.cols ≠ 20)),
                 event := st.event,
                 noRegrips := st.noRegrips.getD s.noRegrips,
                 darkMode := st.darkMode.getD s.darkMode,
                 forceMobile := st.forceMobile.getD s.forceMobile,
                 useLetters := st.useLetters.getD s.useLetters,
                 darkText := st.darkText.getD s.darkText }

/-- A player move event: the player's gesture mutates the engine's board,
which then invokes `handleMove` with `isPlayerMove = true`. -/
def State.playerMove (applyMove : Board → Nat → Nat → Int → Board)
    (isSolved : Board → Bool) (s : State Board) (m : Move) (now : Int) :
    State Board :=
  State.handleMove isSolved
    { s with board := applyMove s.board m.axis m.index m.n } m true now

/-- Fold a list of timestamped player moves through `playerMove`. -/
def runPlayerMoves (applyMove : Board → Nat → Nat → Int → Board)
    (isSolved : Board → Bool) (s : State Board) (l : List (Move × Int)) :
    State Board :=
  l.foldl (fun t p => State.playerMove applyMove isSolved t p.1 p.2) s

/-- Whether the solved predicate holds after some nonempty prefix of `ms`
applied to `b` — the exact condition under which a running non-blind session
auto-finalizes. -/
def hitsSolved (applyMove : Board → Nat → Nat → Int → Board)
    (isSolved : Board → Bool) : Board → List Move → Bool
  | _, [] => false
  | b, m :: rest =>
      let b2 := applyMove b m.axis m.index m.n
      isSolved b2 || hitsSolved applyMove isSolved b2 rest

/-! Projection lemmas for the session operations.  Each records which fields
an operation touches; they are all immediate from the definitions. -/

@[simp] theorem start_started (s : State Board) (now : Int) :
    (s.start now).started = true := rfl

@[simp] theorem start_startTime (s : State Board) (now : Int) :
    (s.start now).startTime = now := rfl

@[simp] theorem start_memoTime (s : State Board) (now : Int) :
    (s.start now).memoTime = 0 := rfl

@[simp] theorem start_time (s : State Board) (now : Int) :
    (s.start now).time = 0 := rfl

@[simp] theorem start_moveHistory (s : State Board) (now : Int) :
    (s.start now).moveHistory = s.moveHistory := rfl

@[simp] theorem start_undos (s : State Board) (now : Int) :
    (s.start now).undos = s.undos := rfl

@[simp] theorem start_event (s : State Board) (now : Int) :
    (s.start now).event = s.event := rfl

@[simp] theorem start_scrambled (s : State Board) (now : Int) :
    (s.start now).scrambled = s.scrambled := rfl

@[simp] theorem start_inSolvingPhase (s : State Board) (now : Int) :
    (s.start now).inSolvingPhase = s.inSolvingPhase := rfl

@[simp] theorem start_board (s : State Board) (now : Int) :
    (s.start now).board = s.board := rfl

@[simp] theorem start_blind (s : State Board) (now : Int) :
    (s.start now).blind = s.blind := rfl

@[simp] theorem start_allSolves (s : State Board) (now : Int) :
    (s.start now).allSolves = s.allSolves := rfl

@[simp] theorem truncateRedo_moveHistory (s : State Board) :
    (s.truncateRedo).moveHistory =
      s.moveHistory.take (s.moveHistory.length - s.undos) := by
  unfold State.truncateRedo
  split
  · rfl
  · rename_i h
    have h0 : s.undos = 0 := by omega
    rw [h0]
    simp

@[simp] theorem truncateRedo_undos (s : State Board) :
    (s.truncateRedo).undos = 0 := by
  unfold State.truncateRedo
  split
  · rfl
  · rename_i h
    omega

@[simp] theorem truncateRedo_started (s : State Board) :
    (s.truncateRedo).started = s.started := by
  unfold State.truncateRedo; split <;> rfl

@[simp] theorem truncateRedo_scrambled (s : State Board) :
    (s.truncateRedo).scrambled = s.scrambled := by
  unfold State.truncateRedo; split <;> rfl

@[simp] theorem truncateRedo_event (s : State Board) :
    (s.truncateRedo).event = s.event := by
  unfold State.truncateRedo; split <;> rfl

@[simp] theorem truncateRedo_inSolvingPhase (s : State Board) :
    (s.truncateRedo).inSolvingPhase = s.inSolvingPhase := by
  unfold State.truncateRedo; split <;> rfl

@[simp] theorem truncateRedo_startTime (s : State Board) :
    (s.truncateRedo).startTime = s.startTime := by
  unfold State.truncateRedo; split <;> rfl

@[simp] theorem truncateRedo_memoTime (s : State Board) :
    (s.truncateRedo).memoTime = s.memoTime := by
  unfold State.truncateRedo; split <;> rfl

@[simp] theorem truncateRedo_board (s : State Board) :
    (s.truncateRedo).board = s.board := by
  unfold State.truncateRedo; split <;> rfl

@[simp] theorem truncateRedo_blind (s : State Board) :
    (s.truncateRedo).blind = s.blind := by
  unfold State.truncateRedo; split <;> rfl

@[simp] theorem truncateRedo_allSolves (s : State Board) :
    (s.truncateRedo).allSolves = s.allSolves := by
  unfold State.truncateRedo; split <;> rfl

@[simp] theorem pushEntries_moveHistory (s : State Board) (m : Move)
    (now : Int) :
    (s.pushEntries m now).moveHistory = s.moveHistory ++
      List.replicate m.n.natAbs
        ({ m with n := m.n.sign, time := now - s.startTime }) := rfl

@[simp] theorem pushEntries_undos (s : State Board) (m : Move) (now : Int) :
    (s.pushEntries m now).undos = s.undos := rfl

@[simp] theorem pushEntries_started (s : State Board) (m : Move) (now : Int) :
    (s.pushEntries m now).started = s.started := rfl

@[simp] theorem pushEntries_scrambled (s : State Board) (m : Move)
    (now : Int) : (s.pushEntries m now).scrambled = s.scrambled := rfl

@[simp] theorem pushEntries_event (s : State Board) (m : Move) (now : Int) :
    (s.pushEntries m now).event = s.event := rfl

@[simp] theorem pushEntries_inSolvingPhase (s : State Board) (m : Move)
    (now : Int) : (s.pushEntries m now).inSolvingPhase = s.inSolvingPhase :=
  rfl

@[simp] theorem pushEntries_startTime (s : State Board) (m : Move)
    (now : Int) : (s.pushEntries m now).startTime = s.startTime := rfl

@[simp] theorem pushEntries_memoTime (s : State Board) (m : Move) (now : Int) :
    (s.pushEntries m now).memoTime = s.memoTime := rfl

@[simp] theorem pushEntries_board (s : State Board) (m : Move) (now : Int) :
    (s.pushEntries m now).board = s.board := rfl

@[simp] theorem pushEntries_blind (s : State Board) (m : Move) (now : Int) :
    (s.pushEntries m now).blind = s.blind := rfl

@[simp] theorem pushEntries_allSolves (s : State Board) (m : Move)
    (now : Int) : (s.pushEntries m now).allSolves = s.allSolves := rfl

@[simp] theorem handleSolved_moveHistory (s : State Board) (now : Int) :
    (s.handleSolved now).moveHistory = s.moveHistory := rfl

@[simp] theorem handleSolved_undos (s : State Board) (now : Int) :
    (s.handleSolved now).undos = s.undos := rfl

@[simp] theorem handleSolved_started (s : State Board) (now : Int) :
    (s.handleSolved now).started = false := rfl

@[simp] theorem handleSolved_scrambled (s : State Board) (now : Int) :
    (s.handleSolved now).scrambled = false := rfl

@[simp] theorem handleSolved_event (s : State Board) (now : Int) :
    (s.handleSolved now).event = s.event := rfl

@[simp] theorem handleSolved_inSolvingPhase (s : State Board) (now : Int) :
    (s.handleSolved now).inSolvingPhase = false := rfl

@[simp] theorem handleSolved_startTime (s : State Board) (now : Int) :
    (s.handleSolved now).startTime = s.startTime := rfl

@[simp] theorem handleSolved_memoTime (s : State Board) (now : Int) :
    (s.handleSolved now).memoTime = s.memoTime := rfl

@[simp] theorem handleSolved_board (s : State Board) (now : Int) :
    (s.handleSolved now).board = s.board := rfl

@[simp] theorem handleSolved_blind (s : State Board) (now : Int) :
    (s.handleSolved now).blind = s.blind := rfl

@[simp] theorem handleSolved_dnf (s : State Board) (now : Int) :
    (s.handleSolved now).dnf = s.dnf := rfl

@[simp] theorem handleSolved_time (s : State Board) (now : Int) :
    (s.handleSolved now).time = now - s.startTime := rfl

@[simp] theorem handleSolved_allSolves (s : State Board) (now : Int) :
    (s.handleSolved now).allSolves = s.allSolves ++
      [{ startTime := s.startTime, time := now - s.startTime,
         moves := s.moveHistory, scramble := s.scrambledBoard,
         memoTime := if 0 < s.memoTime then some s.memoTime else none,
         dnf := if s.dnf then some true else none }] := rfl

@[simp] theorem softReset_started (s : State Board) :
    (s.softReset).started = false := rfl

@[simp] theorem softReset_scrambled (s : State Board) :
    (s.softReset).scrambled = false := rfl

@[simp] theorem softReset_inSolvingPhase (s : State Board) :
    (s.softReset).inSolvingPhase = false := rfl

@[simp] theorem softReset_dnf (s : State Board) :
    (s.softReset).dnf = false := rfl

@[simp] theorem softReset_moveHistory (s : State Board) :
    (s.softReset).moveHistory = [] := rfl

@[simp] theorem softReset_undos (s : State Board) :
    (s.softReset).undos = 0 := rfl

@[simp] theorem softReset_time (s : State Board) :
    (s.softReset).time = 0 := rfl

@[simp] theorem softReset_memoTime (s : State Board) :
    (s.softReset).memoTime = 0 := rfl

@[simp] theorem softReset_inspecting (s : State Board) :
    (s.softReset).inspecting = false := rfl

@[simp] theorem softReset_event (s : State Board) :
    (s.softReset).event = s.event := rfl

@[simp] theorem softReset_startTime (s : State Board) :
    (s.softReset).startTime = s.startTime := rfl

@[simp] theorem softReset_board (s : State Board) :
    (s.softReset).board = s.board := rfl

@[simp] theorem softReset_blind (s : State Board) :
    (s.softReset).blind = s.blind := rfl

@[simp] theorem softReset_allSolves (s : State Board) :
    (s.softReset).allSolves = s.allSolves := rfl

@[simp] theorem softReset_scrambledBoard (s : State Board) :
    (s.softReset).scrambledBoard = s.scrambledBoard := rfl

@[simp] theorem scramble_event (s : State Board) (b : Board) (now : Int) :
    (s.scramble b now).event = s.event := by
  dsimp only [State.scramble]; split <;> rfl

@[simp] theorem scramble_scrambled (s : State Board) (b : Board) (now : Int) :
    (s.scramble b now).scrambled = true := by
  dsimp only [State.scramble]; split <;> rfl

@[simp] theorem scramble_board (s : State Board) (b : Board) (now : Int) :
    (s.scramble b now).board = b := by
  dsimp only [State.scramble]; split <;> rfl

@[simp] theorem scramble_scrambledBoard (s : State Board) (b : Board)
    (now : Int) : (s.scramble b now).scrambledBoard = some b := by
  dsimp only [State.scramble]; split <;> rfl

@[simp] theorem scramble_moveHistory (s : State Board) (b : Board)
    (now : Int) : (s.scramble b now).moveHistory = [] := by
  dsimp only [State.scramble]; split <;> rfl

@[simp] theorem scramble_undos (s : State Board) (b : Board) (now : Int) :
    (s.scramble b now).undos = 0 := by
  dsimp only [State.scramble]; split <;> rfl

@[simp] theorem scramble_memoTime (s : State Board) (b : Board) (now : Int) :
    (s.scramble b now).memoTime = 0 := by
  dsimp only [State.scramble]; split <;> rfl

@[simp] theorem scramble_inSolvingPhase (s : State Board) (b : Board)
    (now : Int) : (s.scramble b now).inSolvingPhase = false := by
  dsimp only [State.scramble]; split <;> rfl

@[simp] theorem scramble_blind (s : State Board) (b : Board) (now : Int) :
    (s.scramble b now).blind = s.blind := by
  dsimp only [State.scramble]; split <;> rfl

@[simp] theorem scramble_allSolves (s : State Board) (b : Board) (now : Int) :
    (s.scramble b now).allSolves = s.allSolves := by
  dsimp only [State.scramble]; split <;> rfl

theorem scramble_started (s : State Board) (b : Board) (now : Int) :
    (s.scramble b now).started =
      (if s.event = EventType.Blind then true else false) := by
  dsimp only [State.scramble]
  split <;> rename_i h <;> simp at h <;> simp [h]

theorem scramble_startTime (s : State Board) (b : Board) (now : Int) :
    (s.scramble b now).startTime =
      (if s.event = EventType.Blind then now else s.startTime) := by
  dsimp only [State.scramble]
  split <;> rename_i h <;> simp at h <;> simp [h]

/-- Unfolding equation for `undo` when the cursor is strictly inside the log
and the boundary entry is `m`. -/
theorem undo_eq_of_get (applyMove : Board → Nat → Nat → Int → Board)
    (s : State Board) (m : Move) (hne : s.undos ≠ s.moveHistory.length)
    (hm : s.moveHistory.get? (s.moveHistory.length - s.undos - 1) = some m) :
    State.undo applyMove s =
      { s with board := applyMove s.board m.axis m.index (-m.n),
               undos := s.undos + 1 } := by
  unfold State.undo
  rw [if_neg hne, hm]

/-- Unfolding equation for `redo` when the cursor is nonzero and the boundary
entry is `m`. -/
theorem redo_eq_of_get (applyMove : Board → Nat → Nat → Int → Board)
    (s : State Board) (m : Move) (h0 : s.undos ≠ 0)
    (hm : s.moveHistory.get? (s.moveHistory.length - s.undos) = some m) :
    State.redo applyMove s =
      { s with board := applyMove s.board m.axis m.index m.n,
               undos := s.undos - 1 } := by
  unfold State.redo
  rw [if_neg h0, hm]

/-- One `redo` cancels one `undo` exactly, as full states, whenever the undo
is in bounds and the engine's `applyMove` at `-n` inverts `applyMove` at
`n`. -/
theorem redo_undo_cancel (applyMove : Board → Nat → Nat → Int → Board)
    (hinv : ∀ b a i n, applyMove (applyMove b a i n) a i (-n) = b)
    (s : State Board) (hs : s.undos < s.moveHistory.length) :
    State.redo applyMove (State.undo applyMove s) = s := by
  have hidx : s.moveHistory.length - s.undos - 1 < s.moveHistory.length := by
    omega
  have hm : s.moveHistory.get? (s.moveHistory.length - s.undos - 1) =
      some (s.moveHistory.get ⟨s.moveHistory.length - s.undos - 1, hidx⟩) :=
    List.get?_eq_get hidx
  set m := s.moveHistory.get ⟨s.moveHistory.length - s.undos - 1, hidx⟩ with hmdef
  rw [undo_eq_of_get applyMove s m (Nat.ne_of_lt hs) hm]
  have hb : applyMove (applyMove s.board m.axis m.index (-m.n)) m.axis m.index
      m.n = s.board := by
    have h := hinv s.board m.axis m.index (-m.n)
    rwa [neg_neg] at h
  rw [redo_eq_of_get applyMove _ m (Nat.succ_ne_zero s.undos) hm]
  simp [hb]

/-- Claim C1: from any session state whose cursor leaves room for `k` undos,
calling `undo()` `k` times and then `redo()` `k` times restores the entire
state — in particular the board, the move log and the undo cursor — provided
the engine's `applyMove` with negated `n` inverts `applyMove` with `n`. -/
theorem claim_C1_undo_redo_roundtrip
    (applyMove : Board → Nat → Nat → Int → Board)
    (hinv : ∀ b a i n, applyMove (applyMove b a i n) a i (-n) = b)
    (s : State Board) (k : Nat)
    (hk : s.undos + k ≤ s.moveHistory.length) :
    (State.redo applyMove)^[k] ((State.undo applyMove)^[k] s) = s := by
  induction k generalizing s with
  | zero => rfl
  | succ k ih =>
    have hlt : s.undos < s.moveHistory.length := by omega
    have hidx : s.moveHistory.length - s.undos - 1 < s.moveHistory.length := by
      omega
    have hm : s.moveHistory.get? (s.moveHistory.length - s.undos - 1) =
        some (s.moveHistory.get ⟨s.moveHistory.length - s.undos - 1, hidx⟩) :=
      List.get?_eq_get hidx
    have hu := undo_eq_of_get applyMove s _ (Nat.ne_of_lt hlt) hm
    have e1 : (State.undo applyMove)^[k + 1] s =
        (State.undo applyMove)^[k] (State.undo applyMove s) :=
      Function.iterate_succ_apply _ _ _
    rw [e1]
    have e2 : (State.redo applyMove)^[k + 1]
          ((State.undo applyMove)^[k] (State.undo applyMove s)) =
        State.redo applyMove
          ((State.redo applyMove)^[k]
            ((State.undo applyMove)^[k] (State.undo applyMove s))) :=
      Function.iterate_succ_apply' _ _ _
    rw [e2, ih (State.undo applyMove s) (by rw [hu]; simp; omega)]
    exact redo_undo_cancel applyMove hinv s hlt

/-- Witness for C1: a concrete two-entry log on an integer "board" where the
shift engine satisfies the inverse hypothesis; two undos followed by two
redos restore the state. -/
theorem claim_C1_witness :
    (∀ (b : Int) (_ : Nat) (_ : Nat) (n : Int), (b + n) + (-n) = b) ∧
    ((0 : Nat) + 2 ≤
      ({ State.initial (7 : Int) with
           moveHistory := [⟨0, 1, 1, 10⟩, ⟨1, 2, -1, 20⟩] } :
         State Int).moveHistory.length) ∧
    (State.redo (fun b _ _ n => b + n))^[2]
        ((State.undo (fun b _ _ n => b + n))^[2]
          ({ State.initial (7 : Int) with
               moveHistory := [⟨0, 1, 1, 10⟩, ⟨1, 2, -1, 20⟩] } : State Int)) =
      ({ State.initial (7 : Int) with
           moveHistory := [⟨0, 1, 1, 10⟩, ⟨1, 2, -1, 20⟩] } : State Int) :=
  ⟨fun b _ _ n => by omega, by decide,
    claim_C1_undo_redo_roundtrip (fun b _ _ n => b + n)
      (fun b _ _ n => by show b + n + -n = b; omega) _ 2 (by decide)⟩

/-- Core log behaviour of `handleMove` on an accepted player move (the
session is started, or scrambled so that the move starts it): the trailing
`undos` entries are removed, the cursor is reset, and `|n|` identical unit
entries are appended, stamped with the elapsed time against the (possibly
freshly captured) `startTime`. -/
theorem handleMove_log (I : Board → Bool) (s : State Board) (m : Move)
    (now : Int) (hacc : s.started = true ∨ s.scrambled = true) :
    (State.handleMove I s m true now).moveHistory =
      s.moveHistory.take (s.moveHistory.length - s.undos) ++
        List.replicate m.n.natAbs
          ({ m with n := m.n.sign,
                    time := now - (State.handleMove I s m true now).startTime }) ∧
    (State.handleMove I s m true now).undos = 0 ∧
    (State.handleMove I s m true now).startTime =
      (if s.started = true then s.startTime else now) := by
  have hstep : ∀ t : State Board, t.started = true →
      (State.handleMove I t m true now).moveHistory =
        t.moveHistory.take (t.moveHistory.length - t.undos) ++
          List.replicate m.n.natAbs
            ({ m with n := m.n.sign, time := now - t.startTime }) ∧
      (State.handleMove I t m true now).undos = 0 ∧
      (State.handleMove I t m true now).startTime = t.startTime := by
    intro t ht
    unfold State.handleMove
    simp only [ht, Bool.not_true, Bool.and_false, Bool.false_eq_true, if_false,
      ite_false]
    split
    · split
      · simp
      · simp
    · split
      · simp
      · simp
  cases hst : s.started with
  | true =>
    have h := hstep s hst
    rw [if_pos rfl]
    refine ⟨?_, h.2.1, h.2.2⟩
    rw [h.2.2]
    exact h.1
  | false =>
    have hscr : s.scrambled = true := by
      rcases hacc with h | h
      · rw [hst] at h; exact absurd h (by simp)
      · exact h
    have e : State.handleMove I s m true now =
        State.handleMove I (s.start now) m true now := by
      unfold State.handleMove
      rw [hst, hscr]
      simp
    have h := hstep (s.start now) (by simp)
    have h3 : (State.handleMove I (s.start now) m true now).startTime = now :=
      by simpa using h.2.2
    rw [e, if_neg (by simp)]
    refine ⟨?_, h.2.1, h3⟩
    rw [h3]
    simpa using h.1

/-- A concrete engine used by witnesses and counterexamples: the board is an
integer counter and a move shifts it by `n`, so applying the negated `n`
inverts the move. -/
def applyShift : Int → Nat → Nat → Int → Int := fun b _ _ n => b + n

/-- A concrete solved predicate used by witnesses and counterexamples: the
counter is zero. -/
def solvedAtZero : Int → Bool := fun b => b == 0

/-- A concrete unit move used by witnesses and counterexamples. -/
def mUnit : Move := ⟨0, 0, 1, 0⟩

/-- A concrete double move (`n = 2`) used by witnesses. -/
def mDouble : Move := ⟨1, 2, 2, 0⟩

/-- A concrete started session with a two-entry log and one pending undo,
used by witnesses. -/
def sRunning : State Int :=
  { State.initial 0 with started := true, scrambled := true, startTime := 0,
                         moveHistory := [⟨0, 0, 1, 5⟩, ⟨0, 0, 1, 6⟩],
                         undos := 1 }

/-- Claim C2: when `handleMove` processes a player move while the cursor is
`k > 0`, it deletes exactly the trailing `k` log entries and resets the
cursor to 0 before appending the move's unit entries; with cursor 0 the log
is only appended to. -/
theorem claim_C2_branch_truncation (I : Board → Bool) (s : State Board)
    (m : Move) (now : Int) (hacc : s.started = true ∨ s.scrambled = true) :
    (0 < s.undos →
      (State.handleMove I s m true now).moveHistory =
        s.moveHistory.take (s.moveHistory.length - s.undos) ++
          List.replicate m.n.natAbs
            ({ m with n := m.n.sign,
                      time := now - (State.handleMove I s m true now).startTime }) ∧
      (State.handleMove I s m true now).undos = 0) ∧
    (s.undos = 0 →
      (State.handleMove I s m true now).moveHistory =
        s.moveHistory ++
          List.replicate m.n.natAbs
            ({ m with n := m.n.sign,
                      time := now - (State.handleMove I s m true now).startTime })) := by
  have h := handleMove_log I s m now hacc
  constructor
  · intro _
    exact ⟨h.1, h.2.1⟩
  · intro h0
    have h1 := h.1
    rw [h0] at h1
    simpa using h1

/-- Witness for C2: a started session with cursor 1 over a two-entry log;
processing a player move truncates the trailing entry and resets the
cursor. -/
theorem claim_C2_witness :
    (sRunning.started = true ∨ sRunning.scrambled = true) ∧ 0 < sRunning.undos ∧
    ((State.handleMove solvedAtZero sRunning mUnit true 10).moveHistory =
      sRunning.moveHistory.take (sRunning.moveHistory.length - sRunning.undos) ++
        List.replicate mUnit.n.natAbs
          ({ mUnit with n := mUnit.n.sign,
                        time := 10 - (State.handleMove solvedAtZero sRunning mUnit true
               10).startTime }) ∧
     (State.handleMove solvedAtZero sRunning mUnit true 10).undos = 0) :=
  ⟨Or.inl rfl, by decide,
    (claim_C2_branch_truncation solvedAtZero sRunning mUnit 10
      (Or.inl rfl)).1 (by decide)⟩

/-- Claim C4 as stated is false: a player move delivered while the session is
neither started nor scrambled (`Idle`, `Finished` or `Inspecting` phase) is
dropped — `handleMove` leaves the whole state, including the move log,
unchanged, even though the move is player-originated with `n ≠ 0`. -/
theorem claim_C4_counterexample :
    mUnit.n ≠ 0 ∧
    (State.initial (0 : Int)).started = false ∧
    (State.initial (0 : Int)).scrambled = false ∧
    State.handleMove solvedAtZero (State.initial (0 : Int)) mUnit true 5 =
      State.initial (0 : Int) := by
  decide

/-- Claim C4, amended: a player-originated move delivered to `handleMove`
while the session is started (or scrambled, which starts it) has its unit
entries appended to the move log; a player move delivered while neither
started nor scrambled leaves the session state unchanged. -/
theorem claim_C4_amended_append_when_active (I : Board → Bool)
    (s : State Board) (m : Move) (now : Int) :
    (s.started = true ∨ s.scrambled = true →
      (State.handleMove I s m true now).moveHistory =
        s.moveHistory.take (s.moveHistory.length - s.undos) ++
          List.replicate m.n.natAbs
            ({ m with n := m.n.sign,
                      time := now - (State.handleMove I s m true now).startTime })) ∧
    (s.started = false → s.scrambled = false →
      State.handleMove I s m true now = s) := by
  constructor
  · intro hacc
    exact (handleMove_log I s m now hacc).1
  · intro h1 h2
    unfold State.handleMove
    simp [h1, h2]

/-- Witness for the amended C4: the started session appends; the idle fresh
state drops the move. -/
theorem claim_C4_witness :
    ((sRunning.started = true ∨ sRunning.scrambled = true) ∧
     (State.handleMove solvedAtZero sRunning mDouble true 10).moveHistory =
       sRunning.moveHistory.take
           (sRunning.moveHistory.length - sRunning.undos) ++
         List.replicate mDouble.n.natAbs
           ({ mDouble with n := mDouble.n.sign,
                           time := 10 - (State.handleMove solvedAtZero sRunning mDouble true
                10).startTime })) ∧
    ((State.initial (0 : Int)).started = false ∧
     (State.initial (0 : Int)).scrambled = false ∧
     State.handleMove solvedAtZero (State.initial (0 : Int)) mDouble true 5 =
       State.initial (0 : Int)) :=
  ⟨⟨Or.inl rfl,
    (claim_C4_amended_append_when_active solvedAtZero sRunning mDouble 10).1
      (Or.inl rfl)⟩,
   ⟨rfl, rfl,
    (claim_C4_amended_append_when_active solvedAtZero (State.initial 0) mDouble
      5).2 rfl rfl⟩⟩

/-- Claim C7: an accepted player move with `|n| > 1` appends exactly `|n|`
consecutive log entries, each with `n` replaced by the sign of the original
`n` and all stamped with the same captured elapsed time. -/
theorem claim_C7_unit_expansion (I : Board → Bool) (s : State Board)
    (m : Move) (now : Int) (hacc : s.started = true ∨ s.scrambled = true)
    (_hn : 1 < m.n.natAbs) :
    (State.handleMove I s m true now).moveHistory =
      s.moveHistory.take (s.moveHistory.length - s.undos) ++
        List.replicate m.n.natAbs
          ({ m with n := m.n.sign,
                    time := now - (State.handleMove I s m true now).startTime }) :=
  (handleMove_log I s m now hacc).1

/-- Witness for C7: a started session processing a move with `n = 2`. -/
theorem claim_C7_witness :
    (sRunning.started = true ∨ sRunning.scrambled = true) ∧
    1 < mDouble.n.natAbs ∧
    (State.handleMove solvedAtZero sRunning mDouble true 10).moveHistory =
      sRunning.moveHistory.take (sRunning.moveHistory.length - sRunning.undos) ++
        List.replicate mDouble.n.natAbs
          ({ mDouble with n := mDouble.n.sign,
                          time := 10 - (State.handleMove solvedAtZero sRunning mDouble true
               10).startTime }) :=
  ⟨Or.inl rfl, by decide,
    claim_C7_unit_expansion solvedAtZero sRunning mDouble 10 (Or.inl rfl)
      (by decide)⟩

/-- Claim C3 as stated is false for `done()`: called on a session that is not
started (a fresh state), `done()` is not a no-op — it finalizes anyway,
appending a solve record and changing the state. -/
theorem claim_C3_counterexample :
    (State.initial (0 : Int)).started = false ∧
    State.done solvedAtZero (State.initial (0 : Int)) 5 ≠
      State.initial (0 : Int) := by
  decide

/-- Claim C3, amended: `undo()` with the cursor at the log length and
`redo()` with the cursor at 0 are exact no-ops; `done()`, however, is
unguarded — whatever the session state (started or not), it always
finalizes, appending one solve record, setting `dnf` to the negation of the
solved predicate and clearing `started`. -/
theorem claim_C3_amended_noop_guards :
    (∀ (A : Board → Nat → Nat → Int → Board) (s : State Board),
        s.undos = s.moveHistory.length → State.undo A s = s) ∧
    (∀ (A : Board → Nat → Nat → Int → Board) (s : State Board),
        s.undos = 0 → State.redo A s = s) ∧
    (∀ (I : Board → Bool) (s : State Board) (now : Int),
        (State.done I s now).allSolves.length = s.allSolves.length + 1 ∧
        (State.done I s now).dnf = !(I s.board) ∧
        (State.done I s now).started = false) := by
  refine ⟨?_, ?_, ?_⟩
  · intro A s h
    unfold State.undo
    rw [if_pos h]
  · intro A s h
    unfold State.redo
    rw [if_pos h]
  · intro I s now
    unfold State.done
    refine ⟨?_, ?_, ?_⟩ <;> simp

/-- Witness for the amended C3: on a fresh state the undo and redo guards
hold and the operations change nothing, while `done()` still appends a
solve. -/
theorem claim_C3_witness :
    ((State.initial (0 : Int)).undos =
        (State.initial (0 : Int)).moveHistory.length ∧
     State.undo applyShift (State.initial (0 : Int)) = State.initial 0) ∧
    ((State.initial (0 : Int)).undos = 0 ∧
     State.redo applyShift (State.initial (0 : Int)) = State.initial 0) ∧
    (State.done solvedAtZero (State.initial (0 : Int)) 5).allSolves.length =
      (State.initial (0 : Int)).allSolves.length + 1 :=
  ⟨⟨rfl, claim_C3_amended_noop_guards.1 applyShift _ rfl⟩,
   ⟨rfl, claim_C3_amended_noop_guards.2.1 applyShift _ rfl⟩,
   (claim_C3_amended_noop_guards.2.2 solvedAtZero _ 5).1⟩

/-- When the session is scrambled but not yet started, `handleMove` on a
player move behaves exactly as on the corresponding freshly started state:
the first move starts the timer. -/
theorem handleMove_start_shift (I : Board → Bool) (s : State Board) (m : Move)
    (now : Int) (hst : s.started = false) (hscr : s.scrambled = true) :
    State.handleMove I s m true now =
      State.handleMove I (s.start now) m true now := by
  unfold State.handleMove
  rw [hst, hscr]
  simp

/-- A move event arriving while the session is neither started nor scrambled
leaves the state unchanged, player-originated or not. -/
theorem handleMove_inactive (I : Board → Bool) (s : State Board) (m : Move)
    (p : Bool) (now : Int) (hst : s.started = false)
    (hscr : s.scrambled = false) :
    State.handleMove I s m p now = s := by
  unfold State.handleMove
  cases p <;> simp [hst, hscr]

/-- A non-player move event never changes the session state at all. -/
theorem handleMove_not_player (I : Board → Bool) (s : State Board) (m : Move)
    (now : Int) : State.handleMove I s m false now = s := rfl

/-- A player move mutates the board through the engine in every phase, even
when `handleMove` itself ignores it. -/
theorem playerMove_board (A : Board → Nat → Nat → Int → Board)
    (I : Board → Bool) (s : State Board) (m : Move) (now : Int) :
    (State.playerMove A I s m now).board = A s.board m.axis m.index m.n := by
  unfold State.playerMove State.handleMove
  cases hst : s.started <;> cases hscr : s.scrambled <;>
    simp [hst, hscr] <;> (try split) <;> (try split) <;> simp

/-- First processed player move in blind mode (solving phase not yet
entered): it records `memoTime`, hides the board and enters the solving
phase. -/
theorem playerMove_blind_first (A : Board → Nat → Nat → Int → Board)
    (I : Board → Bool) (s : State Board) (m : Move) (now : Int)
    (hb : s.event = EventType.Blind) (hst : s.started = true)
    (hin : s.inSolvingPhase = false) :
    (State.playerMove A I s m now).memoTime = now - s.startTime ∧
    (State.playerMove A I s m now).blind = true ∧
    (State.playerMove A I s m now).started = true ∧
    (State.playerMove A I s m now).inSolvingPhase = true ∧
    (State.playerMove A I s m now).event = s.event := by
  unfold State.playerMove State.handleMove
  simp [hb, hst, hin]

/-- Later processed player moves in blind mode (already in the solving
phase): they change neither `memoTime` nor the phase flags nor the
visibility. -/
theorem playerMove_blind_later (A : Board → Nat → Nat → Int → Board)
    (I : Board → Bool) (s : State Board) (m : Move) (now : Int)
    (hb : s.event = EventType.Blind) (hst : s.started = true)
    (hin : s.inSolvingPhase = true) :
    (State.playerMove A I s m now).memoTime = s.memoTime ∧
    (State.playerMove A I s m now).blind = s.blind ∧
    (State.playerMove A I s m now).started = true ∧
    (State.playerMove A I s m now).inSolvingPhase = true ∧
    (State.playerMove A I s m now).event = s.event := by
  unfold State.playerMove State.handleMove
  simp [hb, hst, hin]

/-- After the first blind move, any run of further player moves leaves
`memoTime` untouched. -/
theorem runPlayerMoves_blind_stable (A : Board → Nat → Nat → Int → Board)
    (I : Board → Bool) (l : List (Move × Int)) :
    ∀ s : State Board, s.event = EventType.Blind → s.started = true →
      s.inSolvingPhase = true →
      (runPlayerMoves A I s l).memoTime = s.memoTime := by
  induction l with
  | nil => intro s _ _ _; rfl
  | cons p rest ih =>
    intro s hb hst hin
    have h := playerMove_blind_later A I s p.1 p.2 hb hst hin
    have hrest := ih (State.playerMove A I s p.1 p.2)
      (by rw [h.2.2.2.2, hb]) h.2.2.1 h.2.2.2.1
    calc (runPlayerMoves A I s (p :: rest)).memoTime
        = (runPlayerMoves A I (State.playerMove A I s p.1 p.2) rest).memoTime :=
          rfl
      _ = (State.playerMove A I s p.1 p.2).memoTime := hrest
      _ = s.memoTime := h.1

/-- In a non-blind mode a player move keeps `memoTime` at 0 and preserves
the mode. -/
theorem playerMove_nonblind_memoTime (A : Board → Nat → Nat → Int → Board)
    (I : Board → Bool) (s : State Board) (m : Move) (now : Int)
    (hb : ¬ s.event = EventType.Blind) (h0 : s.memoTime = 0) :
    (State.playerMove A I s m now).memoTime = 0 ∧
    (State.playerMove A I s m now).event = s.event := by
  unfold State.playerMove State.handleMove
  cases hst : s.started <;> cases hscr : s.scrambled <;>
      simp [hst, hscr, hb, h0] <;> split <;> simp [h0]

/-- In a non-blind mode `memoTime` stays 0 across any run of player moves. -/
theorem runPlayerMoves_nonblind_memoTime
    (A : Board → Nat → Nat → Int → Board) (I : Board → Bool)
    (l : List (Move × Int)) :
    ∀ s : State Board, ¬ s.event = EventType.Blind → s.memoTime = 0 →
      (runPlayerMoves A I s l).memoTime = 0 := by
  induction l with
  | nil => intro s _ h0; exact h0
  | cons p rest ih =>
    intro s hb h0
    have h := playerMove_nonblind_memoTime A I s p.1 p.2 hb h0
    exact ih (State.playerMove A I s p.1 p.2) (by rw [h.2]; exact hb) h.1

/-- Claim C5: in blind mode, after `scramble()` at `t0` the first player move
at `t1` both sets `memoTime = t1 - t0` (the elapsed memorization time) and
hides the board (`blind` flips to `true` in that same `handleMove` call), and
no later player move changes `memoTime`; in non-blind modes `memoTime` stays
0 throughout any run of player moves from a scramble. -/
theorem claim_C5_blind_memoTime :
    (∀ (A : Board → Nat → Nat → Int → Board) (I : Board → Bool)
        (s : State Board) (b : Board) (t0 t1 : Int) (m : Move)
        (l : List (Move × Int)),
      s.event = EventType.Blind → s.blind = false →
      (s.scramble b t0).memoTime = 0 ∧
      (s.scramble b t0).blind = false ∧
      (State.playerMove A I (s.scramble b t0) m t1).memoTime = t1 - t0 ∧
      (State.playerMove A I (s.scramble b t0) m t1).blind = true ∧
      (runPlayerMoves A I (State.playerMove A I (s.scramble b t0) m t1)
          l).memoTime = t1 - t0) ∧
    (∀ (A : Board → Nat → Nat → Int → Board) (I : Board → Bool)
        (s : State Board) (b : Board) (t0 : Int) (l : List (Move × Int)),
      ¬ s.event = EventType.Blind →
      (runPlayerMoves A I (s.scramble b t0) l).memoTime = 0) := by
  constructor
  · intro A I s b t0 t1 m l hb hbl
    have hev : (s.scramble b t0).event = EventType.Blind := by
      rw [scramble_event, hb]
    have hst : (s.scramble b t0).started = true := by
      rw [scramble_started, if_pos hb]
    have hin : (s.scramble b t0).inSolvingPhase = false :=
      scramble_inSolvingPhase s b t0
    have htt : (s.scramble b t0).startTime = t0 := by
      rw [scramble_startTime, if_pos hb]
    have h1 := playerMove_blind_first A I (s.scramble b t0) m t1 hev hst hin
    refine ⟨scramble_memoTime s b t0, by rw [scramble_blind]; exact hbl,
      by rw [h1.1, htt], h1.2.1, ?_⟩
    have hrun := runPlayerMoves_blind_stable A I l
      (State.playerMove A I (s.scramble b t0) m t1)
      (by rw [h1.2.2.2.2]; exact hev) h1.2.2.1 h1.2.2.2.1
    rw [hrun, h1.1, htt]
  · intro A I s b t0 l hb
    exact runPlayerMoves_nonblind_memoTime A I l (s.scramble b t0)
      (by rw [scramble_event]; exact hb) (scramble_memoTime s b t0)

/-- Witness for C5: a blind session scrambled at time 0 whose first move
arrives at time 400, and a normal-mode run where `memoTime` stays 0. -/
theorem claim_C5_witness :
    (({ State.initial (5 : Int) with event := EventType.Blind } :
        State Int).event = EventType.Blind ∧
     ({ State.initial (5 : Int) with event := EventType.Blind } :
        State Int).blind = false ∧
     (State.playerMove applyShift solvedAtZero
        (({ State.initial (5 : Int) with event := EventType.Blind } :
           State Int).scramble 5 0) mUnit 400).memoTime = 400 - 0 ∧
     (State.playerMove applyShift solvedAtZero
        (({ State.initial (5 : Int) with event := EventType.Blind } :
           State Int).scramble 5 0) mUnit 400).blind = true) ∧
    (¬ (State.initial (5 : Int)).event = EventType.Blind ∧
     (runPlayerMoves applyShift solvedAtZero
        ((State.initial (5 : Int)).scramble 5 0)
        [(mUnit, 100)]).memoTime = 0) := by
  constructor
  · have h := claim_C5_blind_memoTime.1 applyShift solvedAtZero
      ({ State.initial (5 : Int) with event := EventType.Blind }) 5 0 400 mUnit
      [] rfl rfl
    exact ⟨rfl, rfl, h.2.2.1, h.2.2.2.1⟩
  · exact ⟨by decide,
      claim_C5_blind_memoTime.2 applyShift solvedAtZero (State.initial 5) 5 0
        [(mUnit, 100)] (by decide)⟩

@[simp] theorem runPlayerMoves_nil (A : Board → Nat → Nat → Int → Board)
    (I : Board → Bool) (s : State Board) : runPlayerMoves A I s [] = s := rfl

@[simp] theorem runPlayerMoves_cons (A : Board → Nat → Nat → Int → Board)
    (I : Board → Bool) (s : State Board) (p : Move × Int)
    (rest : List (Move × Int)) :
    runPlayerMoves A I s (p :: rest) =
      runPlayerMoves A I (State.playerMove A I s p.1 p.2) rest := rfl

@[simp] theorem hitsSolved_nil (A : Board → Nat → Nat → Int → Board)
    (I : Board → Bool) (b : Board) : hitsSolved A I b [] = false := rfl

@[simp] theorem hitsSolved_cons (A : Board → Nat → Nat → Int → Board)
    (I : Board → Bool) (b : Board) (m : Move) (ms : List Move) :
    hitsSolved A I b (m :: ms) =
      (I (A b m.axis m.index m.n) ||
        hitsSolved A I (A b m.axis m.index m.n) ms) := rfl

/-- A player move in a dead session (neither started nor scrambled) only
moves the board. -/
theorem playerMove_dead (A : Board → Nat → Nat → Int → Board)
    (I : Board → Bool) (s : State Board) (m : Move) (now : Int)
    (hst : s.started = false) (hscr : s.scrambled = false) :
    State.playerMove A I s m now =
      { s with board := A s.board m.axis m.index m.n } :=
  handleMove_inactive I _ m true now (by simpa) (by simpa)

/-- A run of player moves from a dead session never records a solve and
stays dead. -/
theorem runPlayerMoves_dead (A : Board → Nat → Nat → Int → Board)
    (I : Board → Bool) (l : List (Move × Int)) :
    ∀ s : State Board, s.started = false → s.scrambled = false →
      (runPlayerMoves A I s l).allSolves = s.allSolves ∧
      (runPlayerMoves A I s l).started = false ∧
      (runPlayerMoves A I s l).scrambled = false := by
  induction l with
  | nil => intro s hst hscr; exact ⟨rfl, hst, hscr⟩
  | cons p rest ih =>
    intro s hst hscr
    have hpm := playerMove_dead A I s p.1 p.2 hst hscr
    have h := ih (State.playerMove A I s p.1 p.2) (by rw [hpm]; exact hst)
      (by rw [hpm]; exact hscr)
    refine ⟨?_, h.2.1, h.2.2⟩
    calc (runPlayerMoves A I s (p :: rest)).allSolves
        = (State.playerMove A I s p.1 p.2).allSolves := h.1
      _ = s.allSolves := by rw [hpm]

/-- A processed player move in a running non-blind session that leaves the
board solved finalizes: one solve is appended and the session ends. -/
theorem playerMove_nonblind_solved (A : Board → Nat → Nat → Int → Board)
    (I : Board → Bool) (s : State Board) (m : Move) (now : Int)
    (hst : s.started = true) (hb : ¬ s.event = EventType.Blind)
    (hI : I (A s.board m.axis m.index m.n) = true) :
    (State.playerMove A I s m now).allSolves.length =
      s.allSolves.length + 1 ∧
    (State.playerMove A I s m now).started = false ∧
    (State.playerMove A I s m now).scrambled = false := by
  unfold State.playerMove State.handleMove
  simp [hst, hb, hI]

/-- A processed player move in a running non-blind session that leaves the
board unsolved records nothing and keeps the session running. -/
theorem playerMove_nonblind_notsolved (A : Board → Nat → Nat → Int → Board)
    (I : Board → Bool) (s : State Board) (m : Move) (now : Int)
    (hst : s.started = true) (hb : ¬ s.event = EventType.Blind)
    (hI : I (A s.board m.axis m.index m.n) = false) :
    (State.playerMove A I s m now).allSolves = s.allSolves ∧
    (State.playerMove A I s m now).started = true ∧
    (State.playerMove A I s m now).event = s.event ∧
    (State.playerMove A I s m now).board = A s.board m.axis m.index m.n := by
  unfold State.playerMove State.handleMove
  simp [hst, hb, hI]

/-- Solve-count of a run of player moves from a running non-blind session:
exactly one solve is recorded when some nonempty prefix of the moves leaves
the board solved (the run finalizes at the first such move and is dead
afterwards), and none otherwise. -/
theorem runPlayerMoves_running_count (A : Board → Nat → Nat → Int → Board)
    (I : Board → Bool) (l : List (Move × Int)) :
    ∀ s : State Board, s.started = true → ¬ s.event = EventType.Blind →
      (runPlayerMoves A I s l).allSolves.length =
        s.allSolves.length +
          (if hitsSolved A I s.board (l.map Prod.fst) = true then 1 else 0) := by
  induction l with
  | nil => intro s _ _; simp
  | cons p rest ih =>
    intro s hst hb
    cases hI : I (A s.board p.1.axis p.1.index p.1.n) with
    | true =>
      have h := playerMove_nonblind_solved A I s p.1 p.2 hst hb hI
      have hd := (runPlayerMoves_dead A I rest
        (State.playerMove A I s p.1 p.2) h.2.1 h.2.2).1
      calc (runPlayerMoves A I s (p :: rest)).allSolves.length
          = (State.playerMove A I s p.1 p.2).allSolves.length := by
            unfold runPlayerMoves
            rw [List.foldl_cons]
            exact congrArg List.length hd
        _ = s.allSolves.length + 1 := h.1
        _ = s.allSolves.length +
              (if hitsSolved A I s.board ((p :: rest).map Prod.fst) = true
               then 1 else 0) := by simp [hI]
    | false =>
      have h := playerMove_nonblind_notsolved A I s p.1 p.2 hst hb hI
      have hr := ih (State.playerMove A I s p.1 p.2) h.2.1
        (by rw [h.2.2.1]; exact hb)
      calc (runPlayerMoves A I s (p :: rest)).allSolves.length
          = (runPlayerMoves A I (State.playerMove A I s p.1 p.2)
              rest).allSolves.length := by
            unfold runPlayerMoves
            rw [List.foldl_cons]
        _ = s.allSolves.length +
              (if hitsSolved A I s.board ((p :: rest).map Prod.fst) = true
               then 1 else 0) := by
            rw [hr, h.1, h.2.2.2]
            simp [hI]

/-- A player move from a scrambled, not-yet-started session coincides with
the same move from the corresponding started session (the move starts the
timer). -/
theorem playerMove_start_shift (A : Board → Nat → Nat → Int → Board)
    (I : Board → Bool) (s : State Board) (m : Move) (now : Int)
    (hst : s.started = false) (hscr : s.scrambled = true) :
    State.playerMove A I s m now =
      State.playerMove A I (s.start now) m now := by
  unfold State.playerMove
  rw [handleMove_start_shift I _ m now (by simpa) (by simpa)]
  rfl

/-- Claim C6, part for non-blind modes, stated over whole runs: starting from
`scramble()`, the number of recorded solves grows by exactly 1 when some
nonempty prefix of the player moves leaves the board solved, else by 0.
`handleSolved` is the only operation appending to `allSolves`, so — applied
to every prefix of a run — this says `handleSolved` fires automatically
exactly once, at the first player move after which the solved predicate
holds.  Part for blind mode: `handleMove` never consults the solved
predicate (its result is identical for any two predicates) and never appends
a solve — `handleSolved` is reachable only through `done()` — while `done()`
always finalizes, appending one solve and setting `dnf` to the negation of
the solved predicate on the current board. -/
theorem claim_C6_solved_dispatch :
    (∀ (A : Board → Nat → Nat → Int → Board) (I : Board → Bool)
        (s : State Board) (b : Board) (t0 : Int) (l : List (Move × Int)),
      ¬ s.event = EventType.Blind →
      (runPlayerMoves A I (s.scramble b t0) l).allSolves.length =
        s.allSolves.length +
          (if hitsSolved A I b (l.map Prod.fst) = true then 1 else 0)) ∧
    (∀ (I1 I2 : Board → Bool) (s : State Board) (m : Move) (p : Bool)
        (now : Int),
      s.event = EventType.Blind →
      State.handleMove I1 s m p now = State.handleMove I2 s m p now) ∧
    (∀ (I : Board → Bool) (s : State Board) (m : Move) (p : Bool) (now : Int),
      s.event = EventType.Blind →
      (State.handleMove I s m p now).allSolves = s.allSolves) ∧
    (∀ (I : Board → Bool) (s : State Board) (now : Int),
      (State.done I s now).allSolves.length = s.allSolves.length + 1 ∧
      (State.done I s now).dnf = !(I s.board)) := by
  refine ⟨?_, ?_, ?_, ?_⟩
  · intro A I s b t0 l hb
    cases l with
    | nil => simp
    | cons p rest =>
      have hst : (s.scramble b t0).started = false := by
        rw [scramble_started, if_neg hb]
      have hshift := playerMove_start_shift A I (s.scramble b t0) p.1 p.2 hst
        (scramble_scrambled s b t0)
      have hcount := runPlayerMoves_running_count A I (p :: rest)
        ((s.scramble b t0).start p.2) (by simp)
        (by rw [start_event, scramble_event]; exact hb)
      calc (runPlayerMoves A I (s.scramble b t0) (p :: rest)).allSolves.length
          = (runPlayerMoves A I ((s.scramble b t0).start p.2)
              (p :: rest)).allSolves.length := by
            unfold runPlayerMoves
            rw [List.foldl_cons, List.foldl_cons, hshift]
        _ = s.allSolves.length +
              (if hitsSolved A I b ((p :: rest).map Prod.fst) = true
               then 1 else 0) := by
            rw [hcount]
            simp
  · intro I1 I2 s m p now hb
    cases p with
    | false => rfl
    | true =>
      unfold State.handleMove
      cases hst : s.started <;> cases hscr : s.scrambled <;>
        simp [hst, hscr, hb]
  · intro I s m p now hb
    cases p with
    | false => rfl
    | true =>
      unfold State.handleMove
      cases hst : s.started <;> cases hscr : s.scrambled <;>
        simp [hst, hscr, hb] <;> (try split) <;> simp
  · intro I s now
    unfold State.done
    constructor <;> simp

/-- Witness for C6: a normal-mode scramble where the second move solves the
integer board (one solve recorded), a blind-mode `handleMove` independent of
two different predicates, and a `done()` call that finalizes with
`dnf = false` on a solved board. -/
theorem claim_C6_witness :
    (¬ (State.initial (2 : Int)).event = EventType.Blind ∧
     (runPlayerMoves applyShift solvedAtZero
        ((State.initial (2 : Int)).scramble 2 0)
        [(⟨0, 0, -1, 0⟩, 50), (⟨0, 0, -1, 0⟩, 90)]).allSolves.length =
       (State.initial (2 : Int)).allSolves.length +
         (if hitsSolved applyShift solvedAtZero 2
              ([(⟨0, 0, -1, 0⟩, 50), (⟨0, 0, -1, 0⟩, 90)].map Prod.fst) = true
          then 1 else 0)) ∧
    (({ State.initial (5 : Int) with event := EventType.Blind } :
        State Int).event = EventType.Blind ∧
     State.handleMove solvedAtZero
        ({ State.initial (5 : Int) with event := EventType.Blind }) mUnit true
        7 =
      State.handleMove (fun _ => true)
        ({ State.initial (5 : Int) with event := EventType.Blind }) mUnit true
        7) ∧
    (State.handleMove solvedAtZero
        ({ State.initial (5 : Int) with event := EventType.Blind }) mUnit true
        7).allSolves =
      ({ State.initial (5 : Int) with event := EventType.Blind } :
        State Int).allSolves ∧
    ((State.done solvedAtZero (State.initial (0 : Int)) 9).allSolves.length =
       (State.initial (0 : Int)).allSolves.length + 1 ∧
     (State.done solvedAtZero (State.initial (0 : Int)) 9).dnf =
       !(solvedAtZero (State.initial (0 : Int)).board)) :=
  ⟨⟨by decide,
    claim_C6_solved_dispatch.1 applyShift solvedAtZero (State.initial 2) 2 0
      [(⟨0, 0, -1, 0⟩, 50), (⟨0, 0, -1, 0⟩, 90)] (by decide)⟩,
   ⟨rfl,
    claim_C6_solved_dispatch.2.1 solvedAtZero (fun _ => true)
      ({ State.initial (5 : Int) with event := EventType.Blind }) mUnit true 7
      rfl⟩,
   claim_C6_solved_dispatch.2.2.1 solvedAtZero
     ({ State.initial (5 : Int) with event := EventType.Blind }) mUnit true 7
     rfl,
   claim_C6_solved_dispatch.2.2.2 solvedAtZero (State.initial 0) 9⟩

/-- The session operations of claim C8 with their external inputs: the fresh
board of a scramble or resize-reset, the database answer of a full reset, the
clock reading of each event, and the inspected record. -/
inductive Op (Board : Type) where
  | scrambleOp (newBoard : Board) (now : Int)
  | resetOp (newBoard : Board) (loaded : Option (List (Solve Board)))
  | moveOp (m : Move) (isPlayer : Bool) (now : Int)
  | undoOp
  | redoOp
  | doneOp (now : Int)
  | inspectOp (solve : Solve Board)
deriving DecidableEq

/-- One step of the session state machine.  A move event first mutates the
board through the engine and then enters `handleMove`; `none` propagates the
runtime failure of `inspect` on a record without a scramble snapshot. -/
def step (A : Board → Nat → Nat → Int → Board) (I : Board → Bool)
    (s : State Board) : Op Board → Option (State Board)
  | Op.scrambleOp b now => some (s.scramble b now)
  | Op.resetOp b loaded => some (s.reset b loaded)
  | Op.moveOp m p now =>
      some (State.handleMove I
        { s with board := A s.board m.axis m.index m.n } m p now)
  | Op.undoOp => some (s.undo A)
  | Op.redoOp => some (s.redo A)
  | Op.doneOp now => some (State.done I s now)
  | Op.inspectOp solve => s.inspect solve

/-- Run a sequence of session operations from `s`. -/
def runOps (A : Board → Nat → Nat → Int → Board) (I : Board → Bool) :
    State Board → List (Op Board) → Option (State Board)
  | s, [] => some s
  | s, op :: rest =>
      match step A I s op with
      | none => none
      | some s2 => runOps A I s2 rest

/-- The state produced by a successful `inspect(solve)` whose scramble
snapshot is `b`. -/
def State.inspectedState (s : State Board) (solve : Solve Board) (b : Board) :
    State Board :=
  { s.softReset with
      inspecting := true, time := solve.time, dnf := solve.dnf.getD false,
      board := b, moveHistory := solve.moves, undos := solve.moves.length }

@[simp] theorem inspectedState_inspecting (s : State Board)
    (solve : Solve Board) (b : Board) :
    (s.inspectedState solve b).inspecting = true := rfl

@[simp] theorem inspectedState_board (s : State Board) (solve : Solve Board)
    (b : Board) : (s.inspectedState solve b).board = b := rfl

@[simp] theorem inspectedState_moveHistory (s : State Board)
    (solve : Solve Board) (b : Board) :
    (s.inspectedState solve b).moveHistory = solve.moves := rfl

@[simp] theorem inspectedState_undos (s : State Board) (solve : Solve Board)
    (b : Board) :
    (s.inspectedState solve b).undos = solve.moves.length := rfl

@[simp] theorem inspectedState_time (s : State Board) (solve : Solve Board)
    (b : Board) : (s.inspectedState solve b).time = solve.time := rfl

/-- Unfolding equation for a successful `inspect`. -/
theorem inspect_eq_of_scramble (s : State Board) (solve : Solve Board)
    (b : Board) (hscr : solve.scramble = some b) :
    s.inspect solve = some (s.inspectedState solve b) := by
  unfold State.inspect
  rw [hscr]
  rfl

/-- `handleMove` preserves the cursor invariant
`undos ≤ moveHistory.length`. -/
theorem handleMove_cursor_inv (I : Board → Bool) (t : State Board) (m : Move)
    (p : Bool) (now : Int) (hinv : t.undos ≤ t.moveHistory.length) :
    (State.handleMove I t m p now).undos ≤
      (State.handleMove I t m p now).moveHistory.length := by
  cases p with
  | false => exact hinv
  | true =>
    cases hst : t.started with
    | true =>
      rw [(handleMove_log I t m now (Or.inl hst)).2.1]
      exact Nat.zero_le _
    | false =>
      cases hscr : t.scrambled with
      | true =>
        rw [(handleMove_log I t m now (Or.inr hscr)).2.1]
        exact Nat.zero_le _
      | false =>
        rw [handleMove_inactive I t m true now hst hscr]
        exact hinv

/-- Every single operation preserves the cursor invariant
`undos ≤ moveHistory.length`. -/
theorem step_cursor_inv (A : Board → Nat → Nat → Int → Board)
    (I : Board → Bool) (s : State Board) (op : Op Board) (s2 : State Board)
    (hinv : s.undos ≤ s.moveHistory.length)
    (hstep : step A I s op = some s2) :
    s2.undos ≤ s2.moveHistory.length := by
  cases op with
  | scrambleOp b now =>
    obtain rfl : s.scramble b now = s2 := by simpa [step] using hstep
    simp
  | resetOp b loaded =>
    obtain rfl : s.reset b loaded = s2 := by simpa [step] using hstep
    unfold State.reset
    simp
  | moveOp m p now =>
    obtain rfl : State.handleMove I
        { s with board := A s.board m.axis m.index m.n } m p now = s2 := by
      simpa [step] using hstep
    exact handleMove_cursor_inv I _ m p now (by exact hinv)
  | undoOp =>
    obtain rfl : s.undo A = s2 := by simpa [step] using hstep
    unfold State.undo
    split
    · exact hinv
    · rename_i hne
      split
      · simp
        omega
      · exact hinv
  | redoOp =>
    obtain rfl : s.redo A = s2 := by simpa [step] using hstep
    unfold State.redo
    split
    · exact hinv
    · split
      · simp
        omega
      · exact hinv
  | doneOp now =>
    obtain rfl : State.done I s now = s2 := by simpa [step] using hstep
    unfold State.done
    simpa using hinv
  | inspectOp solve =>
    have hs : step A I s (Op.inspectOp solve) = s.inspect solve := rfl
    rw [hs] at hstep
    cases hscr : solve.scramble with
    | none =>
      unfold State.inspect at hstep
      rw [hscr] at hstep
      exact absurd hstep (by simp)
    | some b =>
      rw [inspect_eq_of_scramble s solve b hscr] at hstep
      obtain rfl := Option.some.inj hstep
      exact le_rfl

/-- The cursor invariant is preserved by whole runs. -/
theorem runOps_cursor_inv (A : Board → Nat → Nat → Int → Board)
    (I : Board → Bool) (ops : List (Op Board)) :
    ∀ s s' : State Board, s.undos ≤ s.moveHistory.length →
      runOps A I s ops = some s' → s'.undos ≤ s'.moveHistory.length := by
  induction ops with
  | nil =>
    intro s s' hinv hrun
    obtain rfl : s = s' := by simpa [runOps] using hrun
    exact hinv
  | cons op rest ih =>
    intro s s' hinv hrun
    unfold runOps at hrun
    cases hstep : step A I s op with
    | none => rw [hstep] at hrun; exact absurd hrun (by simp)
    | some s2 =>
      rw [hstep] at hrun
      exact ih s2 s' (step_cursor_inv A I s op s2 hinv hstep) hrun

/-- Claim C8: the invariant `0 ≤ undoCursor ≤ moveLog.length` holds in every
state reachable from a fresh `State` by any sequence of `scramble`, `reset`,
`handleMove`, `undo`, `redo`, `done` and `inspect` (the lower bound is
inherent: the cursor is a natural number). -/
theorem claim_C8_cursor_invariant (A : Board → Nat → Nat → Int → Board)
    (I : Board → Bool) (b : Board) (ops : List (Op Board)) (s' : State Board)
    (hrun : runOps A I (State.initial b) ops = some s') :
    s'.undos ≤ s'.moveHistory.length :=
  runOps_cursor_inv A I ops (State.initial b) s' (Nat.zero_le _) hrun

/-- A concrete operation sequence used by the C8 witness: scramble, one
player move, one undo. -/
def opsEx : List (Op Int) :=
  [Op.scrambleOp 3 0, Op.moveOp mUnit true 30, Op.undoOp]

/-- Witness for C8: running the concrete sequence succeeds and the final
state satisfies the cursor invariant. -/
theorem claim_C8_witness :
    runOps applyShift solvedAtZero (State.initial (0 : Int)) opsEx =
      some ((runOps applyShift solvedAtZero (State.initial (0 : Int))
        opsEx).getD (State.initial 0)) ∧
    ((runOps applyShift solvedAtZero (State.initial (0 : Int)) opsEx).getD
        (State.initial 0)).undos ≤
      ((runOps applyShift solvedAtZero (State.initial (0 : Int)) opsEx).getD
        (State.initial 0)).moveHistory.length :=
  ⟨by decide,
    claim_C8_cursor_invariant applyShift solvedAtZero 0 opsEx _ (by decide)⟩

/-- A bounded `redo` step only moves the board and the cursor. -/
theorem redo_proj (A : Board → Nat → Nat → Int → Board) (s : State Board)
    (hn : s.undos ≠ 0) (hle : s.undos ≤ s.moveHistory.length) :
    (s.redo A).moveHistory = s.moveHistory ∧
    (s.redo A).undos = s.undos - 1 ∧
    (s.redo A).inspecting = s.inspecting ∧
    (s.redo A).time = s.time := by
  have hidx : s.moveHistory.length - s.undos < s.moveHistory.length := by
    omega
  rw [redo_eq_of_get A s _ hn (List.get?_eq_get hidx)]
  exact ⟨rfl, rfl, rfl, rfl⟩

/-- `j` bounded `redo` steps decrement the cursor by `j` and leave the log,
the inspecting flag and the frozen time untouched. -/
theorem redoN_proj (A : Board → Nat → Nat → Int → Board) (j : Nat) :
    ∀ s : State Board, j ≤ s.undos → s.undos ≤ s.moveHistory.length →
      ((State.redo A)^[j] s).moveHistory = s.moveHistory ∧
      ((State.redo A)^[j] s).undos = s.undos - j ∧
      ((State.redo A)^[j] s).inspecting = s.inspecting ∧
      ((State.redo A)^[j] s).time = s.time := by
  induction j with
  | zero => intro s _ _; simp
  | succ j ih =>
    intro s hj hle
    have hn : s.undos ≠ 0 := by omega
    have h1 := redo_proj A s hn hle
    have h := ih (s.redo A) (by rw [h1.2.1]; omega)
      (by rw [h1.1, h1.2.1]; omega)
    rw [Function.iterate_succ_apply]
    refine ⟨by rw [h.1, h1.1], ?_, by rw [h.2.2.1, h1.2.2.1],
      by rw [h.2.2.2, h1.2.2.2]⟩
    rw [h.2.1, h1.2.1]
    omega

/-- Claim C9: a successful `inspect(solve)` puts the session in inspecting
mode with the board equal to the solve's scramble snapshot, the log equal to
`solve.moves` and the cursor at the full length; after `j` redo steps
(`j ≤ length`) the displayed time is the timestamp of the entry at the redo
boundary (index `j = length - cursor`), falling back to the solve's total
time once the cursor reaches 0 (`j = length`). -/
theorem claim_C9_inspect_replay (A : Board → Nat → Nat → Int → Board)
    (s : State Board) (solve : Solve Board) (s' : State Board)
    (hins : s.inspect solve = some s') :
    s'.inspecting = true ∧
    solve.scramble = some s'.board ∧
    s'.moveHistory = solve.moves ∧
    s'.undos = solve.moves.length ∧
    s'.time = solve.time ∧
    (∀ j : Nat, j ≤ solve.moves.length →
      ((State.redo A)^[j] s').displayTime =
        ((solve.moves.get? j).map Move.time).getD solve.time) := by
  cases hscr : solve.scramble with
  | none =>
    unfold State.inspect at hins
    rw [hscr] at hins
    exact absurd hins (by simp)
  | some b =>
    rw [inspect_eq_of_scramble s solve b hscr] at hins
    obtain rfl := Option.some.inj hins
    refine ⟨inspectedState_inspecting s solve b,
      by rw [inspectedState_board],
      inspectedState_moveHistory s solve b, inspectedState_undos s solve b,
      inspectedState_time s solve b, ?_⟩
    intro j hj
    have hp := redoN_proj A j (s.inspectedState solve b)
      (by rw [inspectedState_undos]; exact hj)
      (by rw [inspectedState_undos, inspectedState_moveHistory])
    unfold State.displayTime
    rw [if_pos (by rw [hp.2.2.1]; exact inspectedState_inspecting s solve b)]
    rw [hp.1, hp.2.1, hp.2.2.2, inspectedState_moveHistory,
      inspectedState_undos, inspectedState_time]
    have heq : solve.moves.length - (solve.moves.length - j) = j := by omega
    rw [heq]

/-- A concrete recorded solve used by the C9 witness. -/
def solveEx : Solve Int :=
  { time := 1000, moves := [⟨0, 0, 1, 111⟩, ⟨0, 0, 1, 222⟩],
    scramble := some 4, startTime := 0 }

/-- Witness for C9: inspecting the concrete solve succeeds, and after one
redo the displayed time is the second entry's timestamp. -/
theorem claim_C9_witness :
    (State.initial (0 : Int)).inspect solveEx =
      some (((State.initial (0 : Int)).inspect solveEx).getD
        (State.initial 0)) ∧
    1 ≤ solveEx.moves.length ∧
    ((State.redo applyShift)^[1]
        (((State.initial (0 : Int)).inspect solveEx).getD
          (State.initial 0))).displayTime =
      ((solveEx.moves.get? 1).map Move.time).getD solveEx.time :=
  ⟨by decide, by decide,
    (claim_C9_inspect_replay applyShift (State.initial 0) solveEx _
      (by decide)).2.2.2.2.2 1 (by decide)⟩

/-- Claim C10: loading the record produced by `serialize()` into a freshly
constructed `State` restores `cols`, `rows`, `event` and the option flags
`noRegrips`, `darkMode`, `forceMobile`, `useLetters` and `darkText` to the
values the serialized `State` had; flags omitted by `serialize` fall back to
the fresh defaults, which equal those values. -/
theorem claim_C10_serialize_load_roundtrip (s : State Board) (b : Board) :
    ((State.initial b).loadFromLocalStorage (some s.serialize)).cols = s.cols ∧
    ((State.initial b).loadFromLocalStorage (some s.serialize)).rows = s.rows ∧
    ((State.initial b).loadFromLocalStorage (some s.serialize)).event = s.event ∧
    ((State.initial b).loadFromLocalStorage (some s.serialize)).noRegrips = s.noRegrips ∧
    ((State.initial b).loadFromLocalStorage (some s.serialize)).darkMode = s.darkMode ∧
    ((State.initial b).loadFromLocalStorage (some s.serialize)).forceMobile = s.forceMobile ∧
    ((State.initial b).loadFromLocalStorage (some s.serialize)).useLetters = s.useLetters ∧
    ((State.initial b).loadFromLocalStorage (some s.serialize)).darkText = s.darkText := by
  unfold State.loadFromLocalStorage State.serialize State.initial
  cases hn : s.noRegrips <;> cases hd : s.darkMode <;> cases hf : s.forceMobile <;>
    cases hu : s.useLetters <;> cases ht : s.darkText <;>
      simp

end Loopover
